import Mathlib

/-
Verification development for the chess-api session hub (main.go).

The repository holds two variants of the same server in one file:
variant A (UCI notation, broadcast-to-all relay, processing loop that
continues on read and decode errors) and variant B (long-algebraic
notation, opponent-only relay, processing loop that breaks on read and
decode errors).  Both are embedded below; functions carry an A or B
suffix when the variants differ.

The rules engine (the external github.com/notnil/chess dependency) is
not part of the repository.  Following the specification it is treated
as an opaque capability and embedded as the structure RulesEngine:
legal-move enumeration (Game.ValidMoves rendered through Move.String),
move application (Game.Move and Game.MoveStr), side to move
(Position.Turn), outcome and method (Game.Outcome, Game.Method), FEN
rendering (Position.String), board contents (Position.Board), and PGN
serialization (Game.MarshalText / Game.UnmarshalText).

JSON encoding and the websocket transport are likewise external
(encoding/json, gorilla/websocket); inbound decoding is embedded as an
already-decoded Option value per message, and outbound writes are
recorded as a trace of (recipient, message) pairs.  File writes are
recorded as a trace of snapshots.
-/

namespace ChessApi

variable {Pos : Type}

/-- Side colours, mirroring chess.White and chess.Black. -/
inductive Color where
  | white
  | black
deriving DecidableEq, Repr

/-- Piece kinds, mirroring chess.PieceType. -/
inductive PieceType where
  | pawn
  | rook
  | knight
  | bishop
  | queen
  | king
deriving DecidableEq, Repr

/-- Board contents as the sequence of squares A1..H8 visited by the
loop in GenerateCapturedPiecesMessage; a square holds either NoPiece or
a coloured piece. -/
abbrev Board := List (Option (Color × PieceType))

/-- Game outcome, mirroring chess.NoOutcome, chess.WhiteWon,
chess.BlackWon, chess.Draw. -/
inductive Outcome where
  | noOutcome
  | whiteWon
  | blackWon
  | draw
deriving DecidableEq, Repr

/-- Termination method; the code only ever compares against
chess.Checkmate, so every other method is collapsed into one case. -/
inductive Method where
  | checkmate
  | otherMethod
deriving DecidableEq, Repr

/-- The opaque rules-engine capability (the external notnil/chess
dependency) at the interface the hub uses.  validMoves is
Game.ValidMoves with each move rendered via Move.String; applyMove is
Game.Move / Game.MoveStr, returning none when the library rejects the
move; marshalText and unmarshalText are Game.MarshalText and
Game.UnmarshalText (PGN). -/
structure RulesEngine (Pos : Type) where
  validMoves : Pos → List String
  applyMove : Pos → String → Option Pos
  turn : Pos → Color
  outcome : Pos → Outcome
  method : Pos → Method
  positionString : Pos → String
  board : Pos → Board
  marshalText : Pos → String
  unmarshalText : String → Option Pos

/-- The Game struct: participant ids plus the rules-engine position. -/
structure Game (Pos : Type) where
  whitePlayerId : String
  blackPlayerId : String
  pos : Pos
deriving DecidableEq, Repr

/-- The games global, map from game id to Game, as an association
list. -/
abbrev GameStore (Pos : Type) := List (String × Game Pos)

/-- The StoredGame struct persisted in games.json. -/
structure StoredGame where
  pgn : String
  whitePlayerId : String
  blackPlayerId : String
deriving DecidableEq, Repr

/-- The StoredGames map persisted in games.json. -/
abbrev StoredGames := List (String × StoredGame)

/-- The decoded MoveMessage payload. -/
structure MoveMessage where
  gameId : String
  color : String
  move : String
deriving DecidableEq, Repr

/-- A registered connection; the live websocket handle is opaque, so
only the identity is kept and writes to the handle are recorded in the
output trace. -/
structure Client where
  id : String
deriving DecidableEq, Repr

/-- Outbound messages, one constructor per generator in the source.
moveFen is variant A MoveAnswer (gameId plus FEN); moveEcho is
variant B MoveAnswer (gameId plus the move string). -/
inductive OutMsg where
  | hello (id : String)
  | against (id color : String)
  | moveFen (gameId fen : String)
  | moveEcho (gameId move : String)
  | possibleMoves (gameId : String) (moves : List String)
  | capturedPieces (gameId : String) (white black : List String)
  | outcome (gameId out winner : String)
deriving DecidableEq, Repr

/-- Result of one handler invocation: the games store afterwards, the
snapshots written to games.json (in order), the messages written to
connections (recipient id, message), and the handler error value. -/
structure HandlerOut (Pos : Type) where
  games : GameStore Pos
  saves : List StoredGames
  sent : List (String × OutMsg)
  result : Except String Unit

/-- games[id] lookup. -/
def lookupGame (gs : GameStore Pos) (id : String) : Option (Game Pos) :=
  match gs with
  | [] => none
  | (k, g) :: rest => if k = id then some g else lookupGame rest id

/-- In Go the handler mutates the stored *Game in place; in the
explicit-state embedding this is replacing the entry for the id (the
handlers only call it for ids the lookup already found). -/
def updateGame (gs : GameStore Pos) (id : String) (g : Game Pos) : GameStore Pos :=
  gs.map (fun e => if e.1 = id then (e.1, g) else e)

/-- SaveGames: serialize every session (PGN plus participant ids) into
the StoredGames map that is written to games.json. -/
def saveGames (e : RulesEngine Pos) (gs : GameStore Pos) : StoredGames :=
  gs.map (fun entry =>
    (entry.1,
     { pgn := e.marshalText entry.2.pos
       whitePlayerId := entry.2.whitePlayerId
       blackPlayerId := entry.2.blackPlayerId }))

/-- LoadGames over an already-decoded StoredGames value: reconstruct
each game from its PGN, stopping at the first reconstruction failure.
Returns the games added before the failure (the Go code assigns into
the games global as it iterates) together with the error, if any. -/
def loadGamesRun (e : RulesEngine Pos) : StoredGames → GameStore Pos × Option String
  | [] => ([], none)
  | (id, sg) :: rest =>
    match e.unmarshalText sg.pgn with
    | none => ([], some "unmarshal error")
    | some pos =>
      let r := loadGamesRun e rest
      ((id, { whitePlayerId := sg.whitePlayerId
              blackPlayerId := sg.blackPlayerId
              pos := pos }) :: r.1, r.2)

/-- LoadGames as a fallible operation (the error return of the Go
function). -/
def loadGames (e : RulesEngine Pos) (sg : StoredGames) : Except String (GameStore Pos) :=
  match loadGamesRun e sg with
  | (gs, none) => Except.ok gs
  | (_, some msg) => Except.error msg

/-- GeneratePossibleMovesMessage, reduced to the moves list it embeds:
empty when the side to move is White and the requester is not the
white participant, empty when the side to move is Black and the
requester is not the black participant, otherwise the full ValidMoves
list.  (The Go function only fails on JSON marshalling, which is
total here.) -/
def generatePossibleMoves (e : RulesEngine Pos) (g : Game Pos) (clientId : String) : List String :=
  if e.turn g.pos = Color.white ∧ g.whitePlayerId ≠ clientId then []
  else if e.turn g.pos = Color.black ∧ g.blackPlayerId ≠ clientId then []
  else e.validMoves g.pos

/-- The participant id controlling the side to move. -/
def moverId (e : RulesEngine Pos) (g : Game Pos) : String :=
  match e.turn g.pos with
  | Color.white => g.whitePlayerId
  | Color.black => g.blackPlayerId

/-- GenerateOutcomeMessage: outcome and winner strings from the game
outcome, with the method suffix for checkmate. -/
def generateOutcomeMsg (e : RulesEngine Pos) (pos : Pos) (gameId : String) : OutMsg :=
  let ow : String × String :=
    match e.outcome pos with
    | Outcome.whiteWon => ("white won", "w")
    | Outcome.blackWon => ("black won", "b")
    | Outcome.draw => ("draw", "")
    | Outcome.noOutcome => ("", "")
  let out :=
    if e.method pos = Method.checkmate then
      (if ow.1 = "" then "checkmate" else ow.1 ++ " checkmate")
    else ow.1
  OutMsg.outcome gameId out ow.2

/-- Starting complement per piece kind (the whiteStart and blackStart
maps in GenerateCapturedPiecesMessage). -/
def startCount : PieceType → Nat
  | PieceType.pawn => 8
  | PieceType.rook => 2
  | PieceType.knight => 2
  | PieceType.bishop => 2
  | PieceType.queen => 1
  | PieceType.king => 1

/-- The piece kinds enumerated by the captured-pieces maps. -/
def pieceTypes : List PieceType :=
  [PieceType.pawn, PieceType.rook, PieceType.knight, PieceType.bishop,
   PieceType.queen, PieceType.king]

/-- Count of pieces of one colour and kind currently on the board (the
square scan in GenerateCapturedPiecesMessage). -/
def currentCount (b : Board) (c : Color) (pt : PieceType) : Nat :=
  b.countP (fun sq => sq == some (c, pt))

/-- chess.NewPiece(pt, color).String(); the exact glyph is irrelevant
to the verified properties, only that one string is emitted per
captured unit. -/
def pieceName (c : Color) (pt : PieceType) : String :=
  let k : String :=
    match pt with
    | PieceType.pawn => "P"
    | PieceType.rook => "R"
    | PieceType.knight => "N"
    | PieceType.bishop => "B"
    | PieceType.queen => "Q"
    | PieceType.king => "K"
  match c with
  | Color.white => "w" ++ k
  | Color.black => "b" ++ k

/-- The rendering loop of GenerateCapturedPiecesMessage over a list of
piece kinds: start minus current is computed in int arithmetic, and
the for loop emits one name per unit only when the difference is
positive. -/
def capturedOfTypes (b : Board) (c : Color) : List PieceType → List String
  | [] => []
  | pt :: rest =>
    List.replicate ((startCount pt : Int) - (currentCount b c pt : Int)).toNat (pieceName c pt)
      ++ capturedOfTypes b c rest

/-- The captured-material list for one side, as embedded in
CapturedPiecesMessage. -/
def capturedPieces (b : Board) (c : Color) : List String :=
  capturedOfTypes b c pieceTypes

/-- Delivery of a batch of messages to every connected client (the
broadcast loop of variant A HandleMove). -/
def broadcastAll (clients : List Client) (msgs : List OutMsg) : List (String × OutMsg) :=
  match clients with
  | [] => []
  | c :: rest => msgs.map (fun m => (c.id, m)) ++ broadcastAll rest msgs

/-- Variant A HandleMove (UCI file): decode the payload, look up the
game, apply the move via Game.MoveStr, persist via SaveGames, then
either notify the mover of position and outcome (terminal case) or
broadcast position, possible-moves and captured-pieces views to every
connected client. -/
def handleMoveA (e : RulesEngine Pos) (gs : GameStore Pos) (clients : List Client)
    (payload : Option MoveMessage) (client : Client) : HandlerOut Pos :=
  match payload with
  | none => ⟨gs, [], [], Except.error "unmarshal error"⟩
  | some mv =>
    match lookupGame gs mv.gameId with
    | none => ⟨gs, [], [], Except.error "Game not found"⟩
    | some game =>
      match e.applyMove game.pos mv.move with
      | none => ⟨gs, [], [], Except.error "illegal move"⟩
      | some pos1 =>
        let game1 : Game Pos := { game with pos := pos1 }
        let gs1 := updateGame gs mv.gameId game1
        let snapshot := saveGames e gs1
        let moveAnswer := OutMsg.moveFen mv.gameId (e.positionString pos1)
        if e.outcome pos1 ≠ Outcome.noOutcome then
          ⟨gs1, [snapshot],
           [(client.id, moveAnswer), (client.id, generateOutcomeMsg e pos1 mv.gameId)],
           Except.ok ()⟩
        else
          let pm := OutMsg.possibleMoves mv.gameId (generatePossibleMoves e game1 client.id)
          let cp := OutMsg.capturedPieces mv.gameId
            (capturedPieces (e.board pos1) Color.white)
            (capturedPieces (e.board pos1) Color.black)
          ⟨gs1, [snapshot], broadcastAll clients [moveAnswer, pm, cp], Except.ok ()⟩

/-- Variant B HandleMove (long-algebraic file): decode the payload,
look up the game, search ValidMoves for an exact string match, apply
the matched move, persist via SaveGames, then deliver the move echo to
the clients registered under the opponent id (no delivery when the
opponent slot is empty or the "ai" sentinel). -/
def handleMoveB (e : RulesEngine Pos) (gs : GameStore Pos) (clients : List Client)
    (payload : Option MoveMessage) (client : Client) : HandlerOut Pos :=
  match payload with
  | none => ⟨gs, [], [], Except.error "unmarshal error"⟩
  | some mv =>
    match lookupGame gs mv.gameId with
    | none => ⟨gs, [], [], Except.error "Game not found"⟩
    | some game =>
      if mv.move ∈ e.validMoves game.pos then
        match e.applyMove game.pos mv.move with
        | none => ⟨gs, [], [], Except.error "move rejected"⟩
        | some pos1 =>
          let game1 : Game Pos := { game with pos := pos1 }
          let gs1 := updateGame gs mv.gameId game1
          let snapshot := saveGames e gs1
          let opponent :=
            if game.whitePlayerId = client.id then game.blackPlayerId
            else game.whitePlayerId
          let sent :=
            if opponent = "" ∨ opponent = "ai" then []
            else (clients.filter (fun cl => cl.id == opponent)).map
              (fun cl => (cl.id, OutMsg.moveEcho mv.gameId mv.move))
          ⟨gs1, [snapshot], sent, Except.ok ()⟩
      else ⟨gs, [], [], Except.error "Invalid move"⟩

/-- One inbound step of the WsHandler read loop: a transport read
failure, an envelope that fails JSON decoding, or a decoded envelope
(type and payload string). -/
inductive InEvent where
  | readErr
  | badEnvelope
  | envelope (type1 : String) (payload : String)
deriving DecidableEq, Repr

/-- Variant A read loop over a finite inbound trace.  Read errors and
decode failures both hit continue, so the loop consumes the whole
trace; the switch dispatches join and move envelopes and drops leave
and unknown types (the case breaks only leave the switch).  Returns
the dispatched (type, payload) pairs and whether the loop exited (it
never does: after the trace the loop blocks on the next read). -/
def runLoopA : List InEvent → List (String × String) × Bool
  | [] => ([], false)
  | InEvent.readErr :: rest => runLoopA rest
  | InEvent.badEnvelope :: rest => runLoopA rest
  | InEvent.envelope t p :: rest =>
    let r := runLoopA rest
    match t with
    | "leave" => r
    | "join" => ((t, p) :: r.1, r.2)
    | "move" => ((t, p) :: r.1, r.2)
    | _ => r

/-- Variant B read loop over a finite inbound trace.  Read errors and
envelope decode failures both hit break, terminating the loop; the
switch is as in variant A. -/
def runLoopB : List InEvent → List (String × String) × Bool
  | [] => ([], false)
  | InEvent.readErr :: _ => ([], true)
  | InEvent.badEnvelope :: _ => ([], true)
  | InEvent.envelope t p :: rest =>
    let r := runLoopB rest
    match t with
    | "leave" => r
    | "join" => ((t, p) :: r.1, r.2)
    | "move" => ((t, p) :: r.1, r.2)
    | _ => r

/-- connectedClients = append(connectedClients, newClient). -/
def registerClient (cs : List Client) (c : Client) : List Client :=
  cs ++ [c]

/-- The deferred cleanup loop: remove the first registry entry whose
id matches, then stop. -/
def removeFirstById (cs : List Client) (id : String) : List Client :=
  match cs with
  | [] => []
  | c :: rest => if c.id = id then rest else c :: removeFirstById rest id

/-- Number of registry entries carrying a given identity. -/
def countById (cs : List Client) (x : String) : Nat :=
  cs.countP (fun c => c.id == x)

/-- Observable outcome of one WsHandler invocation: the connection
registry afterwards, the envelopes dispatched to handlers, whether the
transport was closed, and whether the read loop exited (the deferred
cleanup runs exactly when the function returns, i.e. when the loop
exits). -/
structure WsResult where
  registry : List Client
  dispatched : List (String × String)
  connClosed : Bool
  exitedLoop : Bool
deriving DecidableEq, Repr

/-- Variant A WsHandler: register the connection, run the read loop,
and perform the deferred cleanup (remove first matching registry
entry, close the connection) if and when the loop exits.  The upgrade
and hello-write failure paths, which return before the defer is
installed, are not modelled. -/
def wsHandlerA (reg : List Client) (id : String) (events : List InEvent) : WsResult :=
  let reg1 := registerClient reg ⟨id⟩
  let r := runLoopA events
  if r.2 then ⟨removeFirstById reg1 id, r.1, true, true⟩
  else ⟨reg1, r.1, false, false⟩

/-- Variant B WsHandler, same shape with the variant B read loop. -/
def wsHandlerB (reg : List Client) (id : String) (events : List InEvent) : WsResult :=
  let reg1 := registerClient reg ⟨id⟩
  let r := runLoopB events
  if r.2 then ⟨removeFirstById reg1 id, r.1, true, true⟩
  else ⟨reg1, r.1, false, false⟩

/-- State of the games.json file at startup: absent (os.ReadFile
fails), present but not valid JSON (json.Unmarshal fails), or decoded
StoredGames content. -/
inductive SnapshotFile where
  | missing
  | corrupt
  | parsed (sg : StoredGames)

/-- What main observes after the startup load: the games global, and
whether LoadGames returned an error that main printed. -/
def loadGamesResult (e : RulesEngine Pos) : SnapshotFile → GameStore Pos × Option String
  | SnapshotFile.missing => ([], some "read error")
  | SnapshotFile.corrupt => ([], some "json error")
  | SnapshotFile.parsed sg => loadGamesRun e sg

/-- Outcome of the startup sequence in main: the games store held when
the router starts, whether a load error was logged, and whether the
process went on to serve (register routes and call Run). -/
structure StartupResult (Pos : Type) where
  games : GameStore Pos
  loggedError : Bool
  serving : Bool

/-- The startup sequence of main: call LoadGames, print the error if
any, and proceed to register the routes and listen unconditionally. -/
def startup (e : RulesEngine Pos) (file : SnapshotFile) : StartupResult Pos :=
  let r := loadGamesResult e file
  { games := r.1, loggedError := r.2.isSome, serving := true }

/-- rand.IntN(n): a value in [0, n) drawn from the generator, embedded
as an arbitrary seed reduced modulo n. -/
def randIntN (n : Nat) (seed : Nat) : Nat :=
  seed % n

/-- The session-creation request body. -/
structure CreateGameRequest where
  player1 : String
  player2 : String
  preferredColor : String
deriving DecidableEq, Repr

/-- The colour-assignment logic of the POST /game handler, returning
(whitePlayerId, blackPlayerId).  The unspecified-colour branch draws
randomNumber := rand.IntN(1-0) + 0 exactly as written in the source. -/
def assignColors (req : CreateGameRequest) (seed : Nat) : String × String :=
  if req.preferredColor = "w" then (req.player1, req.player2)
  else if req.preferredColor = "b" then (req.player2, req.player1)
  else
    let randomNumber := randIntN (1 - 0) seed + 0
    if randomNumber = 0 then (req.player1, req.player2)
    else (req.player2, req.player1)

/-- A small concrete rules engine used to evaluate the theorems on
explicit inputs: positions are ply counters, each position below four
plies has exactly one legal move, the game is drawn at four plies, and
PGN serialization is a unary string. -/
def toyValidMoves (n : Nat) : List String :=
  if n < 4 then ["m" ++ toString n] else []

/-- The concrete witness engine. -/
def toyEngine : RulesEngine Nat where
  validMoves := toyValidMoves
  applyMove := fun n s => if s ∈ toyValidMoves n then some (n + 1) else none
  turn := fun n => if n % 2 = 0 then Color.white else Color.black
  outcome := fun n => if n < 4 then Outcome.noOutcome else Outcome.draw
  method := fun _ => Method.otherMethod
  positionString := fun n => "fen" ++ toString n
  board := fun _ => []
  marshalText := fun n => String.mk (List.replicate n 'x')
  unmarshalText := fun s => if s.data.all (fun c => c == 'x') then some s.data.length else none

/-- A concrete store with one session between participants A and B. -/
def gs0 : GameStore Nat :=
  [("g1", { whitePlayerId := "A", blackPlayerId := "B", pos := 0 })]

/-- The opening move envelope for that session. -/
def mv0 : MoveMessage :=
  { gameId := "g1", color := "", move := "m0" }

/-- The toy engine only applies strings that are members of the
legal-move list, matching the documented behaviour of Game.MoveStr. -/
theorem toy_applyMove_legal (n : Nat) :
    ∀ s : String, toyEngine.applyMove n s = none ∨ s ∈ toyEngine.validMoves n := by
  intro s
  by_cases h : s ∈ toyValidMoves n
  · exact Or.inr h
  · exact Or.inl (by simp [toyEngine, h])

/-- C1: for every session, a submitted move string that is not a member
of the legal-move set of the current position (exact notation match)
leaves the position unchanged and SaveGames is not invoked: both
HandleMove variants return before persisting, variant B because the
ValidMoves scan finds no match, variant A because Game.MoveStr rejects
any string outside the legal set (the happly hypothesis is that
documented engine behaviour). -/
theorem c1_illegal_move_leaves_state (e : RulesEngine Pos)
    (gs : GameStore Pos) (clients : List Client) (mv : MoveMessage) (c : Client)
    (g : Game Pos)
    (hg : lookupGame gs mv.gameId = some g)
    (hnot : mv.move ∉ e.validMoves g.pos)
    (happly : ∀ s : String, e.applyMove g.pos s = none ∨ s ∈ e.validMoves g.pos) :
    (handleMoveB e gs clients (some mv) c).games = gs ∧
    (handleMoveB e gs clients (some mv) c).saves = [] ∧
    (handleMoveA e gs clients (some mv) c).games = gs ∧
    (handleMoveA e gs clients (some mv) c).saves = [] := by
  have hap : e.applyMove g.pos mv.move = none := by
    rcases happly mv.move with h | h
    · exact h
    · exact absurd h hnot
  refine ⟨?_, ?_, ?_, ?_⟩ <;> simp [handleMoveA, handleMoveB, hg, hnot, hap]

/-- Witness for c1_illegal_move_leaves_state: the concrete session gs0
with the illegal move string zz is rejected by both handler variants
without any store change and without any snapshot write. -/
theorem c1_witness :
    lookupGame gs0 "g1" = some { whitePlayerId := "A", blackPlayerId := "B", pos := 0 } ∧
    "zz" ∉ toyEngine.validMoves (0 : Nat) ∧
    ((handleMoveB toyEngine gs0 [] (some { gameId := "g1", color := "", move := "zz" }) ⟨"C"⟩).games = gs0 ∧
     (handleMoveB toyEngine gs0 [] (some { gameId := "g1", color := "", move := "zz" }) ⟨"C"⟩).saves = [] ∧
     (handleMoveA toyEngine gs0 [] (some { gameId := "g1", color := "", move := "zz" }) ⟨"C"⟩).games = gs0 ∧
     (handleMoveA toyEngine gs0 [] (some { gameId := "g1", color := "", move := "zz" }) ⟨"C"⟩).saves = []) :=
  ⟨by decide, by decide,
   c1_illegal_move_leaves_state toyEngine gs0 []
     { gameId := "g1", color := "", move := "zz" } ⟨"C"⟩
     { whitePlayerId := "A", blackPlayerId := "B", pos := 0 }
     (by decide) (by decide) (toy_applyMove_legal 0)⟩

/-- C7 counterexample: registering the same identity twice yields two
registry entries for that identity, refuting the at-most-one-entry
claim (registration is a plain slice append). -/
theorem c7_counterexample :
    ¬ countById (registerClient (registerClient [] ⟨"A"⟩) ⟨"A"⟩) "A" ≤ 1 := by
  decide

/-- C7 amended: registration appends unconditionally, so registering an
identity always increases that identity's entry count by one; an
identity already registered ends up duplicated rather than replaced. -/
theorem c7_register_appends :
    ∀ (cs : List Client) (c : Client) (x : String),
      countById (registerClient cs c) x = countById cs x + (if c.id = x then 1 else 0) := by
  intro cs c x
  by_cases h : c.id = x <;>
    simp [countById, registerClient, List.countP_append, List.countP_cons, h]

/-- C8: with preferredColor unspecified, the draw is
rand.IntN(1-0) + 0, which is always zero, so player1 is always
assigned white for every value of the generator; the player2-white
branch is unreachable dead code. -/
theorem c8_unspecified_color_always_player1_white :
    ∀ (p1 p2 : String) (seed : Nat),
      assignColors { player1 := p1, player2 := p2, preferredColor := "" } seed = (p1, p2) := by
  intro p1 p2 seed
  have h1 : ("" : String) ≠ "w" := by decide
  have h2 : ("" : String) ≠ "b" := by decide
  simp [assignColors, h1, h2, randIntN, Nat.mod_one]

/-- The rendered captured list over any list of piece kinds is no
longer than the sum of the starting complements of those kinds. -/
theorem capturedOfTypes_length_le (b : Board) (c : Color) :
    ∀ l : List PieceType, (capturedOfTypes b c l).length ≤ (l.map startCount).sum := by
  intro l
  induction l with
  | nil => simp [capturedOfTypes]
  | cons pt rest ih =>
    have h1 : ((startCount pt : Int) - (currentCount b c pt : Int)).toNat ≤ startCount pt := by
      omega
    simp only [capturedOfTypes, List.length_append, List.length_replicate,
      List.map_cons, List.sum_cons]
    omega

/-- C10: for every board, the captured-material view lists a
non-negative number of units of each piece string and each side's list
holds at most the standard starting complement of 16 entries. -/
theorem c10_captured_view_bounded :
    ∀ b : Board,
      (∀ s : String, 0 ≤ (capturedPieces b Color.white).count s) ∧
      (capturedPieces b Color.white).length ≤ 16 ∧
      (∀ s : String, 0 ≤ (capturedPieces b Color.black).count s) ∧
      (capturedPieces b Color.black).length ≤ 16 := by
  intro b
  have hw := capturedOfTypes_length_le b Color.white pieceTypes
  have hb := capturedOfTypes_length_le b Color.black pieceTypes
  have hsum : (pieceTypes.map startCount).sum = 16 := by decide
  refine ⟨fun s => Nat.zero_le _, ?_, fun s => Nat.zero_le _, ?_⟩
  · show (capturedOfTypes b Color.white pieceTypes).length ≤ 16
    omega
  · show (capturedOfTypes b Color.black pieceTypes).length ≤ 16
    omega

/-- C5 counterexample: in the variant B read loop a malformed envelope
terminates the processing loop and a subsequent well-formed join
envelope is never dispatched, refuting the claim for this variant. -/
theorem c5_counterexample :
    runLoopB [InEvent.badEnvelope, InEvent.envelope "join" "p"] = ([], true) := rfl

/-- C5 amended: decode failure is non-fatal only in variant A, where
the envelope is dropped and the rest of the trace is processed
unchanged (a following join is dispatched); in variant B a decode
failure terminates the loop with nothing dispatched. -/
theorem c5_decode_failure_by_variant :
    ∀ rest : List InEvent,
      runLoopA (InEvent.badEnvelope :: rest) = runLoopA rest ∧
      runLoopA [InEvent.badEnvelope, InEvent.envelope "join" "p"] = ([("join", "p")], false) ∧
      runLoopB (InEvent.badEnvelope :: rest) = ([], true) := by
  intro rest
  exact ⟨rfl, rfl, rfl⟩

/-- The variant A read loop never exits: read failures and decode
failures both continue, and the switch breaks only leave the switch. -/
theorem runLoopA_never_exits :
    ∀ events : List InEvent, (runLoopA events).2 = false := by
  intro events
  induction events with
  | nil => rfl
  | cons ev rest ih =>
    cases ev with
    | readErr => simpa [runLoopA] using ih
    | badEnvelope => simpa [runLoopA] using ih
    | envelope t p =>
      simp only [runLoopA]
      split <;> simp [ih]

/-- Removing the first entry matching a present identity lowers that
identity's entry count by exactly one. -/
theorem countById_removeFirst (id : String) :
    ∀ cs : List Client, (∃ c ∈ cs, c.id = id) →
      countById (removeFirstById cs id) id + 1 = countById cs id := by
  intro cs
  induction cs with
  | nil =>
    intro h
    rcases h with ⟨c, hc, _⟩
    cases hc
  | cons c rest ih =>
    intro h
    by_cases hc : c.id = id
    · simp [removeFirstById, hc, countById, List.countP_cons]
    · have hrest : ∃ d ∈ rest, d.id = id := by
        rcases h with ⟨d, hd, hid⟩
        rcases List.mem_cons.mp hd with rfl | hmem
        · exact absurd hid hc
        · exact ⟨d, hmem, hid⟩
      have h2 := ih hrest
      have hb : (c.id == id) = false := by simpa using hc
      simp only [removeFirstById, if_neg hc]
      simp only [countById, List.countP_cons, hb] at h2 ⊢
      omega

/-- C6 counterexample: in variant A a transport read failure does not
terminate the read loop, so the deferred cleanup never runs: the
registry entry stays and the transport is not closed. -/
theorem c6_counterexample :
    (wsHandlerA [] "A" [InEvent.readErr]).exitedLoop = false ∧
    (wsHandlerA [] "A" [InEvent.readErr]).connClosed = false ∧
    (wsHandlerA [] "A" [InEvent.readErr]).registry = [⟨"A"⟩] := by
  decide

/-- C6 amended: only variant B tears down on transport read failure,
removing the first registry entry for the identity (exactly one
occurrence) and closing the transport; the variant A loop continues on
read failure, never exits, and its cleanup never runs. -/
theorem c6_teardown_by_variant :
    ∀ (reg : List Client) (id : String) (rest : List InEvent),
      (wsHandlerB reg id (InEvent.readErr :: rest)).exitedLoop = true ∧
      (wsHandlerB reg id (InEvent.readErr :: rest)).connClosed = true ∧
      (wsHandlerB reg id (InEvent.readErr :: rest)).registry
        = removeFirstById (registerClient reg ⟨id⟩) id ∧
      countById (wsHandlerB reg id (InEvent.readErr :: rest)).registry id + 1
        = countById (registerClient reg ⟨id⟩) id ∧
      (wsHandlerA reg id (InEvent.readErr :: rest)).exitedLoop = false ∧
      (wsHandlerA reg id (InEvent.readErr :: rest)).connClosed = false ∧
      (wsHandlerA reg id (InEvent.readErr :: rest)).registry = registerClient reg ⟨id⟩ := by
  intro reg id rest
  have hA := runLoopA_never_exits (InEvent.readErr :: rest)
  have hB : runLoopB (InEvent.readErr :: rest) = ([], true) := rfl
  have hmem : ∃ c ∈ registerClient reg ⟨id⟩, c.id = id :=
    ⟨⟨id⟩, by simp [registerClient], rfl⟩
  refine ⟨?_, ?_, ?_, ?_, ?_, ?_, ?_⟩ <;>
    simp [wsHandlerA, wsHandlerB, hA, hB]
  exact countById_removeFirst id (registerClient reg ⟨id⟩) hmem

/-- C2 counterexample: in the concrete session gs0 (white participant
A, black participant B, White to move) the legal opening move is
accepted, applied and persisted when submitted by client C, who is
neither participant, and likewise when submitted by the off-turn
participant B; the handler never consults the submitter identity
before mutating the session. -/
theorem c2_counterexample :
    (handleMoveB toyEngine gs0 [] (some mv0) ⟨"C"⟩).result = Except.ok () ∧
    (handleMoveB toyEngine gs0 [] (some mv0) ⟨"C"⟩).games ≠ gs0 ∧
    (handleMoveB toyEngine gs0 [] (some mv0) ⟨"C"⟩).saves ≠ [] ∧
    (handleMoveB toyEngine gs0 [] (some mv0) ⟨"B"⟩).result = Except.ok () ∧
    (handleMoveB toyEngine gs0 [] (some mv0) ⟨"B"⟩).games ≠ gs0 := by
  refine ⟨rfl, by decide, by decide, rfl, by decide⟩

/-- C2 amended: move acceptance is identity-blind.  In both HandleMove
variants the resulting store, the snapshot writes and the handler
result are the same whichever client submits the envelope; the
submitter identity only influences which connections are notified. -/
theorem c2_move_acceptance_identity_blind (e : RulesEngine Pos)
    (gs : GameStore Pos) (clients : List Client) (payload : Option MoveMessage)
    (c c' : Client) :
    (handleMoveB e gs clients payload c).games = (handleMoveB e gs clients payload c').games ∧
    (handleMoveB e gs clients payload c).saves = (handleMoveB e gs clients payload c').saves ∧
    (handleMoveB e gs clients payload c).result = (handleMoveB e gs clients payload c').result ∧
    (handleMoveA e gs clients payload c).games = (handleMoveA e gs clients payload c').games ∧
    (handleMoveA e gs clients payload c).saves = (handleMoveA e gs clients payload c').saves ∧
    (handleMoveA e gs clients payload c).result = (handleMoveA e gs clients payload c').result := by
  cases payload with
  | none => exact ⟨rfl, rfl, rfl, rfl, rfl, rfl⟩
  | some mv =>
    cases hg : lookupGame gs mv.gameId with
    | none => simp [handleMoveA, handleMoveB, hg]
    | some g =>
      by_cases hm : mv.move ∈ e.validMoves g.pos <;>
        cases hap : e.applyMove g.pos mv.move with
      | none => simp [handleMoveA, handleMoveB, hg, hm, hap]
      | some pos1 =>
        by_cases ho : e.outcome pos1 = Outcome.noOutcome <;>
          simp [handleMoveA, handleMoveB, hg, hm, hap, ho]

/-- Round-trip of the full-store snapshot: when the engine
deserializes its own serialization, LoadGames over the SaveGames
output reconstructs exactly the in-memory store with no error. -/
theorem loadGamesRun_saveGames (e : RulesEngine Pos)
    (hrt : ∀ p : Pos, e.unmarshalText (e.marshalText p) = some p) :
    ∀ gs : GameStore Pos, loadGamesRun e (saveGames e gs) = (gs, none) := by
  intro gs
  induction gs with
  | nil => rfl
  | cons entry rest ih =>
    obtain ⟨id, g⟩ := entry
    simp only [saveGames, List.map_cons, loadGamesRun, hrt g.pos]
    simp only [saveGames] at ih
    simp [ih]

/-- C3: whenever either HandleMove variant accepts a move, the single
snapshot it writes is the serialization of the post-move store, and
deserializing that snapshot via LoadGames yields a store identical to
the in-memory store at the commit, position included (given the
engine round-trip law of the serialize/deserialize capability). -/
theorem c3_commit_snapshot_roundtrip (e : RulesEngine Pos)
    (gs : GameStore Pos) (clients : List Client) (payload : Option MoveMessage) (c : Client)
    (hrt : ∀ p : Pos, e.unmarshalText (e.marshalText p) = some p) :
    ((handleMoveB e gs clients payload c).result = Except.ok () →
      (handleMoveB e gs clients payload c).saves
        = [saveGames e (handleMoveB e gs clients payload c).games] ∧
      loadGames e (saveGames e (handleMoveB e gs clients payload c).games)
        = Except.ok ((handleMoveB e gs clients payload c).games)) ∧
    ((handleMoveA e gs clients payload c).result = Except.ok () →
      (handleMoveA e gs clients payload c).saves
        = [saveGames e (handleMoveA e gs clients payload c).games] ∧
      loadGames e (saveGames e (handleMoveA e gs clients payload c).games)
        = Except.ok ((handleMoveA e gs clients payload c).games)) := by
  have hload : ∀ gsx : GameStore Pos, loadGames e (saveGames e gsx) = Except.ok gsx := by
    intro gsx
    have h := loadGamesRun_saveGames e hrt gsx
    simp [loadGames, h]
  constructor
  · intro hok
    refine ⟨?_, hload _⟩
    cases payload with
    | none => simp [handleMoveB] at hok
    | some mv =>
      cases hg : lookupGame gs mv.gameId with
      | none => simp [handleMoveB, hg] at hok
      | some g =>
        by_cases hm : mv.move ∈ e.validMoves g.pos
        · cases hap : e.applyMove g.pos mv.move with
          | none => simp [handleMoveB, hg, hm, hap] at hok
          | some pos1 => simp [handleMoveB, hg, hm, hap]
        · simp [handleMoveB, hg, hm] at hok
  · intro hok
    refine ⟨?_, hload _⟩
    cases payload with
    | none => simp [handleMoveA] at hok
    | some mv =>
      cases hg : lookupGame gs mv.gameId with
      | none => simp [handleMoveA, hg] at hok
      | some g =>
        cases hap : e.applyMove g.pos mv.move with
        | none => simp [handleMoveA, hg, hap] at hok
        | some pos1 =>
          by_cases ho : e.outcome pos1 = Outcome.noOutcome <;>
            simp [handleMoveA, hg, hap, ho]

/-- The toy engine satisfies the round-trip law: its PGN is a unary
string of x characters whose length is the ply counter. -/
theorem toy_roundtrip :
    ∀ n : Nat, toyEngine.unmarshalText (toyEngine.marshalText n) = some n := by
  intro n
  have hall : (List.replicate n 'x').all (fun c => c == 'x') = true := by
    simp only [List.all_eq_true, beq_iff_eq]
    intro c hc
    exact List.eq_of_mem_replicate hc
  show (if (List.replicate n 'x').all (fun c => c == 'x')
        then some (List.replicate n 'x').length else none) = some n
  rw [hall]
  simp

/-- Witness for c3_commit_snapshot_roundtrip: the accepted opening
move in the concrete session gs0 is accepted by both HandleMove
variants, each writes one snapshot, and LoadGames over each snapshot
returns exactly the post-move store. -/
theorem c3_witness :
    (∀ n : Nat, toyEngine.unmarshalText (toyEngine.marshalText n) = some n) ∧
    (handleMoveB toyEngine gs0 [] (some mv0) ⟨"A"⟩).result = Except.ok () ∧
    (handleMoveA toyEngine gs0 [] (some mv0) ⟨"A"⟩).result = Except.ok () ∧
    ((handleMoveB toyEngine gs0 [] (some mv0) ⟨"A"⟩).saves
       = [saveGames toyEngine (handleMoveB toyEngine gs0 [] (some mv0) ⟨"A"⟩).games] ∧
     loadGames toyEngine (saveGames toyEngine (handleMoveB toyEngine gs0 [] (some mv0) ⟨"A"⟩).games)
       = Except.ok ((handleMoveB toyEngine gs0 [] (some mv0) ⟨"A"⟩).games)) ∧
    ((handleMoveA toyEngine gs0 [] (some mv0) ⟨"A"⟩).saves
       = [saveGames toyEngine (handleMoveA toyEngine gs0 [] (some mv0) ⟨"A"⟩).games] ∧
     loadGames toyEngine (saveGames toyEngine (handleMoveA toyEngine gs0 [] (some mv0) ⟨"A"⟩).games)
       = Except.ok ((handleMoveA toyEngine gs0 [] (some mv0) ⟨"A"⟩).games)) :=
  ⟨toy_roundtrip, rfl, rfl,
   (c3_commit_snapshot_roundtrip toyEngine gs0 [] (some mv0) ⟨"A"⟩ toy_roundtrip).1 rfl,
   (c3_commit_snapshot_roundtrip toyEngine gs0 [] (some mv0) ⟨"A"⟩ toy_roundtrip).2 rfl⟩

/-- C4 counterexample: with a snapshot file present whose stored game
fails to reconstruct, startup logs the error and still proceeds into
serving with an empty session store, refuting fail-fast. -/
theorem c4_counterexample :
    (startup toyEngine (SnapshotFile.parsed
        [("g1", { pgn := "bad", whitePlayerId := "A", blackPlayerId := "B" })])).serving = true ∧
    (startup toyEngine (SnapshotFile.parsed
        [("g1", { pgn := "bad", whitePlayerId := "A", blackPlayerId := "B" })])).games = [] ∧
    (startup toyEngine (SnapshotFile.parsed
        [("g1", { pgn := "bad", whitePlayerId := "A", blackPlayerId := "B" })])).loggedError = true := by
  refine ⟨rfl, by decide, by decide⟩

/-- C4 amended: a malformed snapshot at startup is not fatal: main
prints the LoadGames error and continues into serving; when the first
stored game fails to reconstruct the store it serves with is empty
(in general the games reconstructed before the failure). -/
theorem c4_startup_survives_malformed_snapshot (e : RulesEngine Pos)
    (id : String) (sg : StoredGame) (rest : StoredGames)
    (hbad : e.unmarshalText sg.pgn = none) :
    (startup e (SnapshotFile.parsed ((id, sg) :: rest))).serving = true ∧
    (startup e (SnapshotFile.parsed ((id, sg) :: rest))).games = [] ∧
    (startup e (SnapshotFile.parsed ((id, sg) :: rest))).loggedError = true := by
  refine ⟨rfl, ?_, ?_⟩ <;> simp [startup, loadGamesResult, loadGamesRun, hbad]

/-- Witness for c4_startup_survives_malformed_snapshot at a concrete
malformed stored game. -/
theorem c4_witness :
    toyEngine.unmarshalText "bad" = none ∧
    ((startup toyEngine (SnapshotFile.parsed
        [("g2", { pgn := "bad", whitePlayerId := "A", blackPlayerId := "B" })])).serving = true ∧
     (startup toyEngine (SnapshotFile.parsed
        [("g2", { pgn := "bad", whitePlayerId := "A", blackPlayerId := "B" })])).games = [] ∧
     (startup toyEngine (SnapshotFile.parsed
        [("g2", { pgn := "bad", whitePlayerId := "A", blackPlayerId := "B" })])).loggedError = true) :=
  ⟨by decide,
   c4_startup_survives_malformed_snapshot toyEngine "g2"
     { pgn := "bad", whitePlayerId := "A", blackPlayerId := "B" } [] (by decide)⟩

/-- C9: the legal-move view is empty whenever the requester does not
control the side to move (spectators and off-turn participants), and
non-empty for the requester controlling the side to move as long as
the position has no terminal outcome (the hypothesis is the engine
property that a position without outcome has at least one legal
move). -/
theorem c9_possible_moves_view (e : RulesEngine Pos) (g : Game Pos) (clientId : String)
    (hlaw : e.outcome g.pos = Outcome.noOutcome → e.validMoves g.pos ≠ []) :
    (moverId e g ≠ clientId → generatePossibleMoves e g clientId = []) ∧
    (moverId e g = clientId → e.outcome g.pos = Outcome.noOutcome →
      generatePossibleMoves e g clientId ≠ []) := by
  constructor
  · intro hne
    cases ht : e.turn g.pos with
    | white =>
      have hw : g.whitePlayerId ≠ clientId := by simpa [moverId, ht] using hne
      simp [generatePossibleMoves, ht, hw]
    | black =>
      have hb : g.blackPlayerId ≠ clientId := by simpa [moverId, ht] using hne
      simp [generatePossibleMoves, ht, hb]
  · intro heq hout
    have hne := hlaw hout
    cases ht : e.turn g.pos with
    | white =>
      have hw : g.whitePlayerId = clientId := by simpa [moverId, ht] using heq
      simpa [generatePossibleMoves, ht, hw] using hne
    | black =>
      have hb : g.blackPlayerId = clientId := by simpa [moverId, ht] using heq
      simpa [generatePossibleMoves, ht, hb] using hne

/-- Witness for c9_possible_moves_view: in the concrete session
(white A, black B, White to move, game not over) the off-turn
participant B receives an empty legal-move view while the on-turn
participant A receives a non-empty one. -/
theorem c9_witness :
    (toyEngine.outcome (0 : Nat) = Outcome.noOutcome → toyEngine.validMoves (0 : Nat) ≠ []) ∧
    generatePossibleMoves toyEngine { whitePlayerId := "A", blackPlayerId := "B", pos := 0 } "B" = [] ∧
    generatePossibleMoves toyEngine { whitePlayerId := "A", blackPlayerId := "B", pos := 0 } "A" ≠ [] :=
  ⟨by decide,
   (c9_possible_moves_view toyEngine
     { whitePlayerId := "A", blackPlayerId := "B", pos := 0 } "B" (by decide)).1 (by decide),
   (c9_possible_moves_view toyEngine
     { whitePlayerId := "A", blackPlayerId := "B", pos := 0 } "A" (by decide)).2 (by decide) (by decide)⟩

end ChessApi
